import Mathlib

/-!
Audiobook player (`player.js`): a shallow embedding and its properties.

The player is a set of event handlers over two variables (`currentChapter`,
`isPlaying`), a handful of DOM nodes and one media element.  Handlers become
functions on an explicit `Player` record.

Numbers.  A JavaScript number is carried as `JSNum`: `NaN`, the two infinities,
or a finite value held as an exact rational.  Arithmetic on finite values is
exact, without the rounding of double precision, so the embedding agrees with
the code where no rounding shows:
* comparisons, `Math.floor` and the remainder `%` are exact on doubles;
* for `0 ≤ seconds < 2 ^ 53` the floor of the rounded quotient `seconds / 60`
  is the floor of the exact quotient, and it prints as a plain numeral;
* adding or subtracting 1 or 5 is exact when operand and result are multiples
  of one `2 ^ (-k)` with numerators up to `2 ^ 53` (`onGrid`), whole numbers
  being the case `k = 0`.
Theorems that depend on such arithmetic carry these bounds.  The sign of zero
is not tracked (`-0` prints as `"0"` and is falsy, like `0`).

The media element.  `audio.paused`, `audio.currentTime` and `audio.duration`
are owned by the browser.  What `load()`, `play()`, `pause()` and the
assignment of `src` do to them is not decided by `player.js`, so those
reactions are a parameter (`Browser`) of every handler; each call is also
appended to a log, which is how "a play request was issued" is observed.
An assignment to `audio.currentTime` is recorded as the value assigned.

Exceptions.  A handler returns an `Outcome`: the state it leaves and the
exception it threw, if any.  What was assigned before a throw stays assigned.

Not embedded: `updateProgress` and `seek` (they print and compute fractional
percentages) and the signup form handler.
-/

namespace AudioPlayer

/-! ## JavaScript numbers -/

/-- A JavaScript number: `NaN`, `+Infinity`, `-Infinity` or a finite value. -/
inductive JSNum where
  | nan : JSNum
  | posInf : JSNum
  | negInf : JSNum
  | fin : ℚ → JSNum
  deriving DecidableEq

namespace JSNum

/-- The relational operator `a < b`; any comparison with `NaN` is false. -/
def lt : JSNum → JSNum → Bool
  | nan, _ => false
  | _, nan => false
  | posInf, _ => false
  | negInf, negInf => false
  | negInf, _ => true
  | fin _, posInf => true
  | fin _, negInf => false
  | fin a, fin b => decide (a < b)

/-- The relational operator `a > b`, which is `b < a`. -/
def gt (a b : JSNum) : Bool := lt b a

/-- The relational operator `a >= b`: false with a `NaN`, else the negation of `a < b`. -/
def ge : JSNum → JSNum → Bool
  | nan, _ => false
  | _, nan => false
  | a, b => !(lt a b)

/-- The relational operator `a <= b`: false with a `NaN`, else the negation of `b < a`. -/
def le : JSNum → JSNum → Bool
  | nan, _ => false
  | _, nan => false
  | a, b => !(lt b a)

/-- The operator `a + b`, exact on finite values (no rounding). -/
def add : JSNum → JSNum → JSNum
  | nan, _ => nan
  | _, nan => nan
  | posInf, negInf => nan
  | negInf, posInf => nan
  | posInf, _ => posInf
  | _, posInf => posInf
  | negInf, _ => negInf
  | _, negInf => negInf
  | fin a, fin b => fin (a + b)

/-- The operator `a - b`, exact on finite values (no rounding). -/
def sub : JSNum → JSNum → JSNum
  | nan, _ => nan
  | _, nan => nan
  | posInf, posInf => nan
  | negInf, negInf => nan
  | posInf, _ => posInf
  | _, negInf => posInf
  | negInf, _ => negInf
  | _, posInf => negInf
  | fin a, fin b => fin (a - b)

/-- The conversion `ToBoolean` on a number: `NaN` and zero are falsy. -/
def truthy : JSNum → Bool
  | nan => false
  | fin q => decide (q ≠ 0)
  | _ => true

/-- The global `isNaN` on a number. -/
def isNaN : JSNum → Bool
  | nan => true
  | _ => false

/-- The global `isFinite` on a number. -/
def isFinite : JSNum → Bool
  | fin _ => true
  | _ => false

end JSNum

/-- Truncation toward zero of a rational. -/
def truncQ (q : ℚ) : ℤ := if 0 ≤ q then ⌊q⌋ else ⌈q⌉

/-- The operator `a % b` on finite values with `b ≠ 0`: the remainder has the
sign of the dividend, `a - b * trunc (a / b)`. -/
def remQ (a b : ℚ) : ℚ := a - b * (truncQ (a / b) : ℚ)

/-! ## Number to string -/

/-- Removes the trailing `'0'` characters of a digit list. -/
def stripTrailingZeros (ds : List Char) : List Char :=
  (ds.reverse.dropWhile (fun c => c == '0')).reverse

/-- The operation `Number::toString` (radix 10) on a non-negative whole number.  With `len`
the number of decimal digits: up to 21 digits the plain numeral is produced;
beyond that the exponent form `d.ddde+x` over the significant digits. -/
def natToString (n : Nat) : String :=
  let ds := Nat.toDigits 10 n
  let len := ds.length
  if len ≤ 21 then String.mk ds
  else
    match stripTrailingZeros ds with
    | [] => String.mk ds
    | [d] => String.mk [d] ++ "e+" ++ String.mk (Nat.toDigits 10 (len - 1))
    | d :: rest => String.mk (d :: '.' :: rest) ++ "e+" ++ String.mk (Nat.toDigits 10 (len - 1))

/-- The operation `Number::toString` on a whole number: a minus sign for a negative value. -/
def intToString (z : Int) : String :=
  if z < 0 then "-" ++ natToString z.natAbs else natToString z.natAbs

/-- The method `String.prototype.padStart(targetLength, fill)` for a one-character fill. -/
def padStart (s : String) (targetLength : Nat) (fill : Char) : String :=
  String.mk (List.replicate (targetLength - s.length) fill) ++ s

/-! ## `formatTime` -/

/-- The function `formatTime(seconds)`: `"0:00"` for `NaN` and the infinities, else
`Math.floor(seconds / 60)`, a colon, and `Math.floor(seconds % 60)` padded to
two characters.  The quotient is exact here; the code rounds it to a double,
which leaves its floor unchanged for `0 ≤ seconds < 2 ^ 53`. -/
def formatTime (seconds : JSNum) : String :=
  if JSNum.isNaN seconds || !JSNum.isFinite seconds then "0:00"
  else
    match seconds with
    | JSNum.fin q =>
      let mins : Int := ⌊q / 60⌋
      let secs : Int := ⌊remQ q 60⌋
      intToString mins ++ ":" ++ padStart (intToString secs) 2 '0'
    | _ => "0:00"

/-! ## `parseInt` -/

/-- The white space and line terminators that `parseInt` skips at the start:
TAB, LF, VT, FF, CR, SP, NBSP, the space separators and U+2028, U+2029, U+FEFF. -/
def isStrWhiteSpace (c : Char) : Bool :=
  let n := c.toNat
  n == 9 || n == 10 || n == 11 || n == 12 || n == 13 || n == 32 || n == 160 ||
  n == 5760 || (8192 ≤ n && n ≤ 8202) || n == 8232 || n == 8233 || n == 8239 ||
  n == 8287 || n == 12288 || n == 65279

/-- The value of a character as a digit of the given radix (10 or 16), if it is one. -/
def digitValue (radix : Nat) (c : Char) : Option Nat :=
  let n := c.toNat
  if 48 ≤ n ∧ n ≤ 57 then some (n - 48)
  else if radix = 16 ∧ 97 ≤ n ∧ n ≤ 102 then some (n - 87)
  else if radix = 16 ∧ 65 ≤ n ∧ n ≤ 70 then some (n - 55)
  else none

/-- Reads the longest prefix of digits: the accumulated value and how many were read. -/
def readDigits (radix : Nat) : List Char → Nat → Nat → Nat × Nat
  | [], acc, count => (acc, count)
  | c :: rest, acc, count =>
    match digitValue radix c with
    | some d => readDigits radix rest (acc * radix + d) (count + 1)
    | none => (acc, count)

/-- The function `parseInt` on a list of characters, with no radix argument. -/
def parseIntChars (input : List Char) : JSNum :=
  let s := input.dropWhile isStrWhiteSpace
  let negative := s.head? == some '-'
  let s := if s.head? == some '-' || s.head? == some '+' then s.tail else s
  let hex := s.take 2 == ['0', 'x'] || s.take 2 == ['0', 'X']
  let radix := if hex then 16 else 10
  let s := if hex then s.drop 2 else s
  let (value, count) := readDigits radix s 0 0
  if count = 0 then JSNum.nan
  else if negative then JSNum.fin (-(value : ℚ)) else JSNum.fin (value : ℚ)

/-- The call `parseInt(item.dataset.chapter)`: an absent attribute reads as `undefined`,
which `parseInt` first converts to the string `"undefined"`. -/
def parseInt (attr : Option String) : JSNum :=
  match attr with
  | none => parseIntChars "undefined".toList
  | some s => parseIntChars s.toList

/-! ## The chapter table -/

/-- One entry of the `chapters` array. -/
structure Chapter where
  num : Nat
  name : String
  src : String
  deriving DecidableEq

/-- The `chapters` array. -/
def chapters : List Chapter :=
  [ { num := 1, name := "The Beginning", src := "audio/chapter-01.mp3" },
    { num := 2, name := "First Encounter", src := "audio/chapter-02.mp3" },
    { num := 3, name := "The Revelation", src := "audio/chapter-03.mp3" },
    { num := 4, name := "Descent", src := "audio/chapter-04.mp3" },
    { num := 5, name := "The Choice", src := "audio/chapter-05.mp3" },
    { num := 6, name := "Awakening", src := "audio/chapter-06.mp3" } ]

/-- The property read `chapters[index]`: defined for a whole, non-negative
index below the length, `undefined` (`none`) for anything else, `NaN` included. -/
def chapterAt (index : JSNum) : Option Chapter :=
  match index with
  | JSNum.fin q => if ((⌊q⌋ : ℤ) : ℚ) = q ∧ 0 ≤ q then chapters[⌊q⌋.toNat]? else none
  | _ => none

/-! ## State -/

/-- The part of the media element that the browser owns and the player reads. -/
structure Media where
  paused : Bool
  currentTime : JSNum
  duration : JSNum
  deriving DecidableEq

/-- A method call made on the media element. -/
inductive MediaCall where
  | load : MediaCall
  | play : MediaCall
  | pause : MediaCall
  deriving DecidableEq

/-- How the media element reacts, at once, to the assignment of `src` and to
`load()`, `play()` and `pause()`.  Not decided by the player: a parameter. -/
structure Browser where
  onSrc : String → Media → Media
  onLoad : Media → Media
  onPlay : Media → Media
  onPause : Media → Media

/-- One `.chapter-item` of the chapter list: its `locked` and `active` classes
and its `data-chapter` attribute, if present. -/
structure ChapterItem where
  locked : Bool
  active : Bool
  chapter : Option String
  deriving DecidableEq

/-- The two variables of the player, the media element and the DOM nodes it writes. -/
structure Player where
  currentChapter : JSNum
  isPlaying : Bool
  src : String
  audio : Media
  calls : List MediaCall
  chapterTitle : String
  chapterSubtitle : String
  items : List ChapterItem
  progressWidth : String
  timeCurrent : String
  timeTotal : String
  playIconDisplay : String
  pauseIconDisplay : String
  console : List String
  deriving DecidableEq

/-- What a handler leaves behind: the state, and the exception if one was thrown.
Assignments made before a throw stay in the state. -/
structure Outcome where
  st : Player
  error : Option String
  deriving DecidableEq

/-- A `keydown` event: the tag name of its target and its `code`. -/
structure KeyEvent where
  targetTagName : String
  code : String
  deriving DecidableEq

/-! ## Handlers -/

/-- The function `updatePlayButton()`. -/
def updatePlayButton (s : Player) : Player :=
  if s.isPlaying then { s with playIconDisplay := "none", pauseIconDisplay := "block" }
  else { s with playIconDisplay := "block", pauseIconDisplay := "none" }

/-- Strict equality `i === index` of a position with a number. -/
def strictEqIndex (i : Nat) (index : JSNum) : Bool :=
  match index with
  | JSNum.fin q => decide ((i : ℚ) = q)
  | _ => false

/-- The `forEach` of `loadChapter` over `.chapter-item:not(.locked)`: the
unlocked items are numbered from `i` on and get `active` exactly at `index`;
locked items are skipped and do not count. -/
def markActive (index : JSNum) : Nat → List ChapterItem → List ChapterItem
  | _, [] => []
  | i, item :: rest =>
    if item.locked then item :: markActive index i rest
    else { item with active := strictEqIndex i index } :: markActive index (i + 1) rest

/-- The call `audio.play()`: logged, and the browser reacts. -/
def audioPlay (B : Browser) (s : Player) : Player :=
  { s with audio := B.onPlay s.audio, calls := s.calls ++ [MediaCall.play] }

/-- The function `loadChapter(index)`.  The assignment of `src` and the call
`load()` are one step: the browser reacts to both and `load()` is logged. -/
def loadChapter (B : Browser) (index : JSNum) (s : Player) : Outcome :=
  if JSNum.lt index (JSNum.fin 0) || JSNum.ge index (JSNum.fin (chapters.length : ℚ)) then
    ⟨s, none⟩
  else
    let s1 := { s with currentChapter := index }
    match chapterAt index with
    | none => ⟨s1, some "TypeError"⟩
    | some chapter =>
      ⟨{ s1 with
          src := chapter.src
          audio := B.onLoad (B.onSrc chapter.src s1.audio)
          calls := s1.calls ++ [MediaCall.load]
          chapterTitle := "Chapter " ++ natToString chapter.num
          chapterSubtitle := chapter.name
          items := markActive index 0 s1.items
          progressWidth := "0%"
          timeCurrent := "0:00" }, none⟩

/-- The function `togglePlay()`, up to the return of the call; the two continuations of the
play request are `playFulfilled` and `playRejected`. -/
def togglePlay (B : Browser) (s : Player) : Player :=
  if s.audio.paused then audioPlay B s
  else
    updatePlayButton
      { s with audio := B.onPause s.audio, calls := s.calls ++ [MediaCall.pause],
               isPlaying := false }

/-- The `then` callback of `togglePlay`. -/
def playFulfilled (s : Player) : Player :=
  updatePlayButton { s with isPlaying := true }

/-- The `catch` callback of `togglePlay`, for an error of the given name. -/
def playRejected (errName : String) (s : Player) : Player :=
  let s1 := { s with console := s.console ++ ["Playback failed: " ++ errName] }
  if errName = "NotSupportedError" then { s1 with chapterSubtitle := "Audio coming soon..." }
  else s1

/-- The function `prevChapter()`. -/
def prevChapter (B : Browser) (s : Player) : Outcome :=
  if JSNum.gt s.currentChapter (JSNum.fin 0) then
    let r := loadChapter B (JSNum.sub s.currentChapter (JSNum.fin 1)) s
    match r.error with
    | some _ => r
    | none => if r.st.isPlaying then ⟨audioPlay B r.st, none⟩ else r
  else ⟨s, none⟩

/-- The function `nextChapter()`. -/
def nextChapter (B : Browser) (s : Player) : Outcome :=
  if JSNum.lt s.currentChapter (JSNum.sub (JSNum.fin (chapters.length : ℚ)) (JSNum.fin 1)) then
    let r := loadChapter B (JSNum.add s.currentChapter (JSNum.fin 1)) s
    match r.error with
    | some _ => r
    | none => if r.st.isPlaying then ⟨audioPlay B r.st, none⟩ else r
  else ⟨s, none⟩

/-- The function `handleChapterClick(e)`; `target` is `e.target.closest('.chapter-item')`. -/
def handleChapterClick (B : Browser) (target : Option ChapterItem) (s : Player) : Outcome :=
  match target with
  | none => ⟨s, none⟩
  | some item =>
    if item.locked then ⟨s, none⟩
    else
      let chapterNum := parseInt item.chapter
      let index := JSNum.sub chapterNum (JSNum.fin 1)
      let r := loadChapter B index s
      match r.error with
      | some _ => r
      | none => ⟨togglePlay B r.st, none⟩

/-- The `ended` listener. -/
def onEnded (B : Browser) (s : Player) : Outcome :=
  if JSNum.lt s.currentChapter (JSNum.sub (JSNum.fin (chapters.length : ℚ)) (JSNum.fin 1)) then
    nextChapter B s
  else ⟨updatePlayButton { s with isPlaying := false }, none⟩

/-- The `pause` listener. -/
def onPause (s : Player) : Player :=
  updatePlayButton { s with isPlaying := false }

/-- The `play` listener. -/
def onPlay (s : Player) : Player :=
  updatePlayButton { s with isPlaying := true }

/-- The `loadedmetadata` listener. -/
def onLoadedMetadata (s : Player) : Player :=
  { s with timeTotal := formatTime s.audio.duration }

/-- The `keydown` listener.  `e.preventDefault()` acts on the event only.  The
sums `currentTime ± 5` and `duration - 5` are exact here; the code rounds them
to doubles, which changes nothing for values on the grid `onGrid`. -/
def onKeydown (B : Browser) (e : KeyEvent) (s : Player) : Outcome :=
  if e.targetTagName = "INPUT" then ⟨s, none⟩
  else if e.code = "Space" then ⟨togglePlay B s, none⟩
  else if e.code = "ArrowLeft" then
    if JSNum.gt s.audio.currentTime (JSNum.fin 5) then
      ⟨{ s with audio := { s.audio with
            currentTime := JSNum.sub s.audio.currentTime (JSNum.fin 5) } }, none⟩
    else prevChapter B s
  else if e.code = "ArrowRight" then
    if JSNum.truthy s.audio.duration &&
        JSNum.lt s.audio.currentTime (JSNum.sub s.audio.duration (JSNum.fin 5)) then
      ⟨{ s with audio := { s.audio with
            currentTime := JSNum.add s.audio.currentTime (JSNum.fin 5) } }, none⟩
    else nextChapter B s
  else ⟨s, none⟩

/-- The last statement of the `DOMContentLoaded` listener: `loadChapter(0)`. -/
def domContentLoaded (B : Browser) (page : Player) : Outcome :=
  loadChapter B (JSNum.fin 0) { page with currentChapter := JSNum.fin 0, isPlaying := false }

/-! ## Reference definitions, from the specification -/

/-- Two decimal digits for a value below 100: tens, then units. -/
def twoDigits (r : Nat) : String :=
  String.mk [Nat.digitChar (r / 10), Nat.digitChar (r % 10)]

/-- The reference rendering of a non-negative whole number of seconds: the
unpadded decimal numeral of `s div 60`, a colon, `s mod 60` on two digits. -/
def formatTimeRef (s : Nat) : String :=
  Nat.repr (s / 60) ++ ":" ++ twoDigits (s % 60)

/-- A non-negative value `n / 2 ^ k` with `n + 5 * 2 ^ k ≤ 2 ^ 53`: the value,
its sum with 5 and its difference with 5 are all multiples of `2 ^ (-k)` with a
numerator of at most `2 ^ 53` in absolute value, hence doubles, so that adding
and subtracting 5 in double precision is exact.  Whole numbers up to
`2 ^ 53 - 5` are the case `k = 0`. -/
def onGrid (q : ℚ) : Prop :=
  ∃ k n : ℕ, q = (n : ℚ) / 2 ^ k ∧ n + 5 * 2 ^ k ≤ 2 ^ 53

/-- A duration for which `duration - 5` is exact: `NaN`, an infinity, or a
finite value on the grid. -/
def durationOnGrid (d : JSNum) : Prop :=
  match d with
  | JSNum.fin q => onGrid q
  | _ => True

/-- The current chapter index is a valid index into the chapter table. -/
def validIndex (s : Player) : Prop :=
  ∃ i : Nat, i < chapters.length ∧ s.currentChapter = JSNum.fin (i : ℚ)

/-! ## Auxiliary definitions -/

/-- The state after a successful `loadChapter` of chapter `c` at `index`. -/
def loaded (B : Browser) (index : JSNum) (c : Chapter) (s : Player) : Player :=
  { s with
      currentChapter := index
      src := c.src
      audio := B.onLoad (B.onSrc c.src s.audio)
      calls := s.calls ++ [MediaCall.load]
      chapterTitle := "Chapter " ++ natToString c.num
      chapterSubtitle := c.name
      items := markActive index 0 s.items
      progressWidth := "0%"
      timeCurrent := "0:00" }

/-! ## Sample inputs -/

/-- A browser that pauses on `load()` and on a new `src`, and flips `paused`
on `play()` and `pause()`. -/
def sampleBrowser : Browser where
  onSrc := fun _ m => { m with paused := true, currentTime := JSNum.fin 0, duration := JSNum.nan }
  onLoad := fun m => { m with paused := true, currentTime := JSNum.fin 0, duration := JSNum.nan }
  onPlay := fun m => { m with paused := false }
  onPause := fun m => { m with paused := true }

/-- A page before the player has touched it: three unlocked items, one locked. -/
def samplePage : Player where
  currentChapter := JSNum.fin 0
  isPlaying := false
  src := ""
  audio := { paused := true, currentTime := JSNum.fin 0, duration := JSNum.nan }
  calls := []
  chapterTitle := "Chapter 1"
  chapterSubtitle := ""
  items := [ { locked := false, active := true, chapter := some "1" },
             { locked := false, active := false, chapter := some "2" },
             { locked := false, active := false, chapter := some "3" },
             { locked := true, active := false, chapter := some "4" } ]
  progressWidth := "0%"
  timeCurrent := "0:00"
  timeTotal := "0:00"
  playIconDisplay := "block"
  pauseIconDisplay := "none"
  console := []

/-- A state in the middle of chapter 3 (index 2), playing. -/
def samplePlaying : Player :=
  { samplePage with
      currentChapter := JSNum.fin 2
      isPlaying := true
      src := "audio/chapter-03.mp3"
      audio := { paused := false, currentTime := JSNum.fin 42, duration := JSNum.fin 300 }
      chapterTitle := "Chapter 3"
      chapterSubtitle := "The Revelation"
      progressWidth := "14%"
      timeCurrent := "0:42"
      playIconDisplay := "none"
      pauseIconDisplay := "block" }

/-! ## Auxiliary facts about `formatTime` -/


theorem intToString_natCast (n : ℕ) : intToString (n : ℤ) = natToString n := by
  unfold intToString
  simp

theorem truncQ_intCast_div (z : ℤ) : truncQ ((z : ℚ) / 60) = z.tdiv 60 := by
  unfold truncQ
  have h60 : ((60 : ℕ) : ℚ) = 60 := by norm_num
  by_cases hz : 0 ≤ z
  · have : (0 : ℚ) ≤ (z : ℚ) / 60 := by
      have : (0 : ℚ) ≤ (z : ℚ) := by exact_mod_cast hz
      positivity
    rw [if_pos this, Int.tdiv_eq_ediv hz (by norm_num), ← h60, Rat.floor_intCast_div_natCast]
    rfl
  · have hz' : z < 0 := not_le.mp hz
    have : ¬ (0 : ℚ) ≤ (z : ℚ) / 60 := by
      have : (z : ℚ) < 0 := by exact_mod_cast hz'
      intro hc
      have := div_neg_of_neg_of_pos this (by norm_num : (0 : ℚ) < 60)
      linarith
    rw [if_neg this]
    have e : (z : ℚ) / 60 = -((((-z : ℤ)) : ℚ) / ((60 : ℕ) : ℚ)) := by
      push_cast; ring
    rw [e, Int.ceil_neg, Rat.floor_intCast_div_natCast]
    have : (-z).tdiv 60 = (-z) / 60 := Int.tdiv_eq_ediv (by omega) (by norm_num)
    rw [Int.neg_tdiv] at this
    push_cast
    omega

theorem formatTime_intCast (z : ℤ) :
    formatTime (JSNum.fin (z : ℚ)) =
      intToString (z / 60) ++ ":" ++ padStart (intToString (z.tmod 60)) 2 '0' := by
  have h60 : ((60 : ℕ) : ℚ) = 60 := by norm_num
  have hm : ⌊(z : ℚ) / 60⌋ = z / 60 := by
    rw [← h60, Rat.floor_intCast_div_natCast]; rfl
  have hs : ⌊remQ (z : ℚ) 60⌋ = z.tmod 60 := by
    unfold remQ
    rw [truncQ_intCast_div, Int.tmod_def]
    have : (z : ℚ) - 60 * ((z.tdiv 60 : ℤ) : ℚ) = ((z - 60 * z.tdiv 60 : ℤ) : ℚ) := by
      push_cast; ring
    rw [this, Int.floor_intCast]
  simp only [formatTime, JSNum.isNaN, JSNum.isFinite, hm, hs]
  rfl

theorem formatTime_nonneg (q : ℚ) (hq : 0 ≤ q) :
    formatTime (JSNum.fin q) =
      natToString (⌊q⌋₊ / 60) ++ ":" ++ padStart (natToString (⌊q⌋₊ % 60)) 2 '0' := by
  have hfl : ⌊q⌋ = (⌊q⌋₊ : ℤ) := (Int.natCast_floor_eq_floor hq).symm
  have hq60 : (0 : ℚ) ≤ q / 60 := by positivity
  have hm : ⌊q / 60⌋ = ((⌊q⌋₊ / 60 : ℕ) : ℤ) := by
    rw [← Int.natCast_floor_eq_floor hq60]
    have := Nat.floor_div_nat q 60
    rw [show ((60 : ℕ) : ℚ) = 60 by norm_num] at this
    rw [this]
  have hs : ⌊remQ q 60⌋ = ((⌊q⌋₊ % 60 : ℕ) : ℤ) := by
    unfold remQ truncQ
    rw [if_pos hq60, hm]
    have : q - 60 * (((⌊q⌋₊ / 60 : ℕ) : ℤ) : ℚ) = q - ((60 * ((⌊q⌋₊ / 60 : ℕ) : ℤ) : ℤ) : ℚ) := by
      push_cast; ring
    rw [this, Int.floor_sub_int, hfl]
    push_cast
    omega
  simp only [formatTime, JSNum.isNaN, JSNum.isFinite, hm, hs, intToString_natCast]
  rfl

theorem natToString_eq_repr (n : ℕ) (h : n < 10 ^ 21) : natToString n = Nat.repr n := by
  have hl : (Nat.toDigits 10 n).length ≤ 21 := by
    exact Nat.repr_length n 21 (by norm_num) h
  unfold natToString
  simp only [hl, if_true]
  rfl

theorem padStart_two (r : ℕ) (h : r < 60) : padStart (natToString r) 2 '0' = twoDigits r := by
  interval_cases r <;> decide


/-! ## Auxiliary facts about the handlers -/

theorem chapters_length : chapters.length = 6 := rfl

theorem chapterAt_natCast (i : ℕ) : chapterAt (JSNum.fin (i : ℚ)) = chapters[i]? := by
  simp [chapterAt]

theorem guard_natCast (i : ℕ) :
    (JSNum.lt (JSNum.fin (i : ℚ)) (JSNum.fin 0) ||
      JSNum.ge (JSNum.fin (i : ℚ)) (JSNum.fin (chapters.length : ℚ))) = decide (6 ≤ i) := by
  have h0 : ¬ ((i : ℚ) < 0) := not_lt.mpr (Nat.cast_nonneg i)
  simp only [JSNum.lt, JSNum.ge, chapters_length, h0, decide_False, Bool.false_or]
  by_cases h : 6 ≤ i
  · have : ¬ ((i : ℚ) < ((6 : ℕ) : ℚ)) := by
      rw [Nat.cast_lt]; omega
    simp [h, this]
  · have : (i : ℚ) < ((6 : ℕ) : ℚ) := by
      rw [Nat.cast_lt]; omega
    have h' : i < 6 := by omega
    simp [h', this]

theorem loadChapter_natCast (B : Browser) (s : Player) (i : ℕ) (c : Chapter)
    (hc : chapters[i]? = some c) :
    loadChapter B (JSNum.fin (i : ℚ)) s = ⟨loaded B (JSNum.fin (i : ℚ)) c s, none⟩ := by
  have hi : i < 6 := by
    have := (List.getElem?_eq_some.mp hc).1
    simpa [chapters_length] using this
  have hg := guard_natCast i
  have hd : decide (6 ≤ i) = false := by simp; omega
  rw [hd] at hg
  unfold loadChapter
  rw [hg, chapterAt_natCast, hc]
  rfl

theorem chapters_getElem? (i : ℕ) (hi : i < 6) : ∃ c, chapters[i]? = some c := by
  interval_cases i <;> exact ⟨_, rfl⟩


theorem lt_last_natCast (i : ℕ) :
    JSNum.lt (JSNum.fin (i : ℚ)) (JSNum.sub (JSNum.fin (chapters.length : ℚ)) (JSNum.fin 1))
      = decide (i < 5) := by
  have e : ((chapters.length : ℕ) : ℚ) - 1 = ((5 : ℕ) : ℚ) := by
    rw [chapters_length]; norm_num
  simp only [JSNum.sub, JSNum.lt, e, Nat.cast_lt]

theorem nextChapter_step (B : Browser) (s : Player) (i : ℕ) (c : Chapter)
    (hs : s.currentChapter = JSNum.fin (i : ℚ)) (hi : i < 5)
    (hc : chapters[i + 1]? = some c) :
    nextChapter B s =
      ⟨if s.isPlaying then audioPlay B (loaded B (JSNum.fin ((i + 1 : ℕ) : ℚ)) c s)
        else loaded B (JSNum.fin ((i + 1 : ℕ) : ℚ)) c s, none⟩ := by
  have hadd : JSNum.add (JSNum.fin (i : ℚ)) (JSNum.fin 1) = JSNum.fin ((i + 1 : ℕ) : ℚ) := by
    simp [JSNum.add]
  unfold nextChapter
  rw [hs, lt_last_natCast, hadd, loadChapter_natCast B s (i + 1) c hc]
  have : (loaded B (JSNum.fin ((i + 1 : ℕ) : ℚ)) c s).isPlaying = s.isPlaying := rfl
  simp only [hi, decide_True, if_true, this]
  cases s.isPlaying <;> simp

theorem nextChapter_last (B : Browser) (s : Player) (i : ℕ)
    (hs : s.currentChapter = JSNum.fin (i : ℚ)) (hi : 5 ≤ i) :
    nextChapter B s = ⟨s, none⟩ := by
  unfold nextChapter
  rw [hs, lt_last_natCast]
  have : ¬ i < 5 := by omega
  simp [this]

theorem prevChapter_step (B : Browser) (s : Player) (i : ℕ) (c : Chapter)
    (hs : s.currentChapter = JSNum.fin ((i + 1 : ℕ) : ℚ))
    (hc : chapters[i]? = some c) :
    prevChapter B s =
      ⟨if s.isPlaying then audioPlay B (loaded B (JSNum.fin (i : ℚ)) c s)
        else loaded B (JSNum.fin (i : ℚ)) c s, none⟩ := by
  have hsub : JSNum.sub (JSNum.fin ((i + 1 : ℕ) : ℚ)) (JSNum.fin 1) = JSNum.fin (i : ℚ) := by
    simp [JSNum.sub]
  have hgt : JSNum.gt (JSNum.fin ((i + 1 : ℕ) : ℚ)) (JSNum.fin 0) = true := by
    have : (0 : ℚ) < ((i + 1 : ℕ) : ℚ) := by exact_mod_cast Nat.succ_pos i
    simp only [JSNum.gt, JSNum.lt, this, decide_True]
  unfold prevChapter
  rw [hs, hgt, hsub, loadChapter_natCast B s i c hc]
  have : (loaded B (JSNum.fin (i : ℚ)) c s).isPlaying = s.isPlaying := rfl
  simp only [if_true, this]
  cases s.isPlaying <;> simp

theorem prevChapter_first (B : Browser) (s : Player)
    (hs : s.currentChapter = JSNum.fin ((0 : ℕ) : ℚ)) :
    prevChapter B s = ⟨s, none⟩ := by
  unfold prevChapter
  rw [hs]
  simp [JSNum.gt, JSNum.lt]

theorem nextChapter_index (B : Browser) (s : Player) (i : ℕ)
    (hs : s.currentChapter = JSNum.fin (i : ℚ)) (hi : i ≤ 5) :
    (nextChapter B s).st.currentChapter = JSNum.fin ((min (i + 1) 5 : ℕ) : ℚ) := by
  by_cases h : i < 5
  · obtain ⟨c, hc⟩ := chapters_getElem? (i + 1) (by omega)
    rw [nextChapter_step B s i c hs h hc, min_eq_left (by omega)]
    cases s.isPlaying <;> rfl
  · rw [nextChapter_last B s i hs (by omega), min_eq_right (by omega)]
    have : i = 5 := by omega
    rw [hs, this]

theorem prevChapter_index (B : Browser) (s : Player) (i : ℕ)
    (hs : s.currentChapter = JSNum.fin (i : ℚ)) (hi : i ≤ 5) :
    (prevChapter B s).st.currentChapter = JSNum.fin ((i - 1 : ℕ) : ℚ) := by
  cases i with
  | zero => rw [prevChapter_first B s hs]; exact hs
  | succ j =>
    obtain ⟨c, hc⟩ := chapters_getElem? j (by omega)
    rw [prevChapter_step B s j c hs hc]
    cases s.isPlaying <;> rfl

theorem validIndex_loadChapter_int (B : Browser) (s : Player) (z : ℤ) (hv : validIndex s) :
    validIndex (loadChapter B (JSNum.fin (z : ℚ)) s).st := by
  by_cases h : z < 0 ∨ 6 ≤ z
  · unfold loadChapter
    rcases h with h | h
    · have : (z : ℚ) < 0 := by exact_mod_cast h
      simpa [JSNum.lt, this] using hv
    · have h1 : ¬ ((z : ℚ) < 0) := by
        have : (0 : ℚ) ≤ (z : ℚ) := by exact_mod_cast (by omega : (0 : ℤ) ≤ z)
        exact not_lt.mpr this
      have h2 : ¬ ((z : ℚ) < 6) := by
        have : (6 : ℚ) ≤ (z : ℚ) := by exact_mod_cast h
        exact not_lt.mpr this
      simpa [JSNum.lt, JSNum.ge, chapters_length, h1, h2] using hv
  · have hz : z = ((z.toNat : ℕ) : ℤ) := by omega
    have hi : z.toNat < 6 := by omega
    obtain ⟨c, hc⟩ := chapters_getElem? z.toNat hi
    have hq : (z : ℚ) = ((z.toNat : ℕ) : ℚ) := by
      conv_lhs => rw [hz]
      push_cast
      rfl
    rw [hq, loadChapter_natCast B s z.toNat c hc]
    exact ⟨z.toNat, by rw [chapters_length]; exact hi, rfl⟩

theorem whole_or_nan_aux (count value : ℕ) (negative : Bool) :
    (if count = 0 then JSNum.nan
      else if negative then JSNum.fin (-(value : ℚ)) else JSNum.fin (value : ℚ)) = JSNum.nan ∨
    ∃ z : ℤ, (if count = 0 then JSNum.nan
      else if negative then JSNum.fin (-(value : ℚ)) else JSNum.fin (value : ℚ))
        = JSNum.fin (z : ℚ) := by
  by_cases hc : count = 0
  · exact Or.inl (by simp [hc])
  · cases negative
    · exact Or.inr ⟨(value : ℤ), by simp [hc]⟩
    · exact Or.inr ⟨-(value : ℤ), by simp [hc]⟩

theorem parseInt_whole_or_nan (attr : Option String) :
    parseInt attr = JSNum.nan ∨ ∃ z : ℤ, parseInt attr = JSNum.fin (z : ℚ) := by
  have key : ∀ l : List Char,
      parseIntChars l = JSNum.nan ∨ ∃ z : ℤ, parseIntChars l = JSNum.fin (z : ℚ) := by
    intro l
    unfold parseIntChars
    simp only
    exact whole_or_nan_aux _ _ _
  cases attr with
  | none => exact key "undefined".toList
  | some a => exact key a.toList

/-- Every handler keeps the index valid, the click handler as long as the
`data-chapter` attribute of the clicked item parses to a number. -/
theorem validIndex_preserved (B : Browser) (s : Player) (hv : validIndex s) :
    (∀ z : ℤ, validIndex (loadChapter B (JSNum.fin (z : ℚ)) s).st) ∧
    validIndex (prevChapter B s).st ∧ validIndex (nextChapter B s).st ∧
    validIndex (onEnded B s).st ∧
    (∀ e : KeyEvent, e.code = "ArrowLeft" ∨ e.code = "ArrowRight" →
      validIndex (onKeydown B e s).st) ∧
    (∀ target : Option ChapterItem,
      (∀ item, target = some item → parseInt item.chapter ≠ JSNum.nan) →
      validIndex (handleChapterClick B target s).st) := by
  obtain ⟨i, hi, hs⟩ := hv
  have hi6 : i < 6 := by simpa [chapters_length] using hi
  have hv : validIndex s := ⟨i, hi, hs⟩
  have hnext : validIndex (nextChapter B s).st :=
    ⟨min (i + 1) 5, by rw [chapters_length]; omega, nextChapter_index B s i hs (by omega)⟩
  have hprev : validIndex (prevChapter B s).st :=
    ⟨i - 1, by rw [chapters_length]; omega, prevChapter_index B s i hs (by omega)⟩
  refine ⟨fun z => validIndex_loadChapter_int B s z hv, hprev, hnext, ?_, ?_, ?_⟩
  · unfold onEnded
    split
    · exact hnext
    · exact ⟨i, hi, by simpa [updatePlayButton] using hs⟩
  · intro e he
    unfold onKeydown
    split
    · exact hv
    · split
      · rcases he with he | he <;> simp_all
      · split
        · split
          · exact ⟨i, hi, hs⟩
          · exact hprev
        · split
          · split
            · exact ⟨i, hi, hs⟩
            · exact hnext
          · exact hv
  · intro target ht
    cases target with
    | none => exact hv
    | some item =>
      unfold handleChapterClick
      simp only
      split
      · exact hv
      · rcases parseInt_whole_or_nan item.chapter with hn | ⟨z, hz⟩
        · exact absurd hn (ht item rfl)
        · have hsub : JSNum.sub (JSNum.fin (z : ℚ)) (JSNum.fin 1) = JSNum.fin ((z - 1 : ℤ) : ℚ) := by
            simp [JSNum.sub]
          rw [hz, hsub]
          have hl := validIndex_loadChapter_int B s (z - 1) hv
          split
          · exact hl
          · obtain ⟨j, hj, hjs⟩ := hl
            refine ⟨j, hj, ?_⟩
            rw [← hjs]
            unfold togglePlay audioPlay updatePlayButton
            split
            · rfl
            · simp
/-! ## `formatTime` against its reference -/

/-- C2, as amended: `formatTime` returns `"0:00"` for `NaN`, `+Infinity` and
`-Infinity`, and for every non-negative whole number of seconds `s` below `2 ^ 53`
it returns the unpadded decimal numeral of `s div 60`, a colon, and `s mod 60`
on exactly two digits; in particular 65, 3600 and 4503 give `"1:05"`,
`"60:00"` and `"75:03"`. -/
theorem formatTime_eq_reference :
    formatTime JSNum.nan = "0:00" ∧ formatTime JSNum.posInf = "0:00" ∧
    formatTime JSNum.negInf = "0:00" ∧
    (∀ s : ℕ, s < 2 ^ 53 → formatTime (JSNum.fin (s : ℚ)) = formatTimeRef s) ∧
    formatTime (JSNum.fin 65) = "1:05" ∧ formatTime (JSNum.fin 3600) = "60:00" ∧
    formatTime (JSNum.fin 4503) = "75:03" := by
  have key : ∀ s : ℕ, s < 2 ^ 53 → formatTime (JSNum.fin (s : ℚ)) = formatTimeRef s := by
    intro s hs
    rw [formatTime_nonneg (s : ℚ) (Nat.cast_nonneg s), Nat.floor_natCast, formatTimeRef,
      natToString_eq_repr (s / 60) (by omega), padStart_two (s % 60) (Nat.mod_lt s (by norm_num))]
  refine ⟨rfl, rfl, rfl, key, ?_, ?_, ?_⟩
  · have h := key 65 (by norm_num)
    rw [show ((65 : ℕ) : ℚ) = 65 by norm_num] at h
    rw [h]; decide
  · have h := key 3600 (by norm_num)
    rw [show ((3600 : ℕ) : ℚ) = 3600 by norm_num] at h
    rw [h]; decide
  · have h := key 4503 (by norm_num)
    rw [show ((4503 : ℕ) : ℚ) = 4503 by norm_num] at h
    rw [h]; decide

/-- C2, the amended statement at `s = 4503`. -/
theorem formatTime_eq_reference_witness :
    (4503 : ℕ) < 2 ^ 53 ∧ formatTime (JSNum.fin ((4503 : ℕ) : ℚ)) = formatTimeRef 4503 :=
  ⟨by norm_num, formatTime_eq_reference.2.2.2.1 4503 (by norm_num)⟩

/-- C2 fails as stated: at `s = 6 * 10 ^ 22` seconds (a whole number, exactly
representable) the minutes are `10 ^ 21`, which prints in exponent form, so the
result is `"1e+21:00"` and not the decimal numeral of the reference. -/
theorem formatTime_exponent_form :
    formatTime (JSNum.fin ((6 * 10 ^ 22 : ℕ) : ℚ)) = "1e+21:00" ∧
    formatTimeRef (6 * 10 ^ 22) = "1000000000000000000000:00" ∧
    formatTime (JSNum.fin ((6 * 10 ^ 22 : ℕ) : ℚ)) ≠ formatTimeRef (6 * 10 ^ 22) := by
  have h : formatTime (JSNum.fin ((6 * 10 ^ 22 : ℕ) : ℚ)) = "1e+21:00" := by
    rw [formatTime_nonneg _ (Nat.cast_nonneg _), Nat.floor_natCast]
    decide
  have h' : formatTimeRef (6 * 10 ^ 22) = "1000000000000000000000:00" := by decide
  refine ⟨h, h', ?_⟩
  rw [h, h']
  decide

/-- C10, as amended: for every finite non-negative input below `2 ^ 53`, whole
or fractional, `formatTime` returns the decimal numeral of the floor of
`seconds / 60`, a colon, and the floored seconds component
`floor(seconds) mod 60` on exactly two decimal digits, a value from 00 to 59. -/
theorem formatTime_nonneg_form (q : ℚ) (hq : 0 ≤ q) (hb : q < 2 ^ 53) :
    formatTime (JSNum.fin q) = Nat.repr ⌊q / 60⌋₊ ++ ":" ++ twoDigits (⌊q⌋₊ % 60) ∧
    ⌊q⌋₊ % 60 ≤ 59 ∧
    (Nat.digitChar (⌊q⌋₊ % 60 / 10)).isDigit = true ∧
    (Nat.digitChar (⌊q⌋₊ % 60 % 10)).isDigit = true := by
  have hlt : ⌊q⌋₊ % 60 < 60 := Nat.mod_lt _ (by norm_num)
  have hdiv : ⌊q / 60⌋₊ = ⌊q⌋₊ / 60 := by
    have := Nat.floor_div_nat q 60
    rwa [show ((60 : ℕ) : ℚ) = 60 by norm_num] at this
  have hfl : ⌊q⌋₊ < 2 ^ 53 := by
    have h : ((⌊q⌋₊ : ℕ) : ℚ) < ((2 ^ 53 : ℕ) : ℚ) := by
      have := Nat.floor_le hq
      push_cast
      linarith
    exact_mod_cast h
  refine ⟨?_, by omega, ?_, ?_⟩
  · rw [formatTime_nonneg q hq, hdiv, padStart_two _ hlt,
      natToString_eq_repr (⌊q⌋₊ / 60) (by omega)]
  · generalize ⌊q⌋₊ % 60 = r at hlt
    interval_cases r <;> decide
  · generalize ⌊q⌋₊ % 60 = r at hlt
    interval_cases r <;> decide

/-- C10, the amended statement at 65.5 seconds: the result is `"1:05"`. -/
theorem formatTime_nonneg_form_witness :
    (0 : ℚ) ≤ 131 / 2 ∧ (131 / 2 : ℚ) < 2 ^ 53 ∧
    formatTime (JSNum.fin (131 / 2)) =
      Nat.repr ⌊(131 / 2 : ℚ) / 60⌋₊ ++ ":" ++ twoDigits (⌊(131 / 2 : ℚ)⌋₊ % 60) :=
  ⟨by norm_num, by norm_num,
   (formatTime_nonneg_form (131 / 2) (by norm_num) (by norm_num)).1⟩

/-- C10 fails as stated: `formatTime(-1)` is `"-1:-1"`, so what follows the
colon is not two digits. -/
theorem formatTime_negative_one :
    formatTime (JSNum.fin (-1)) = "-1:-1" ∧
    ¬ ∃ (m : String) (d₁ d₂ : Char), d₁.isDigit = true ∧ d₂.isDigit = true ∧
        formatTime (JSNum.fin (-1)) = m ++ ":" ++ String.mk [d₁, d₂] := by
  have h : formatTime (JSNum.fin (-1)) = "-1:-1" := by
    have h := formatTime_intCast (-1)
    rw [show (((-1 : ℤ)) : ℚ) = -1 by norm_num] at h
    rw [h]; decide
  refine ⟨h, ?_⟩
  rintro ⟨m, d₁, d₂, h₁, -, he⟩
  rw [h] at he
  have hd := congrArg (fun s => s.data.reverse) he
  simp only [String.data_append, List.reverse_append] at hd
  have : d₁ = '-' := by
    have h2 := congrArg (fun l => l.get? 1) hd
    simpa using h2.symm
  rw [this] at h₁
  exact absurd h₁ (by decide)


/-! ## `loadChapter` -/

/-- C1: for every integer index below 0 or at least 6, `loadChapter(index)`
returns the state it was given, every field included, and raises no error. -/
theorem loadChapter_out_of_range (B : Browser) (s : Player) (z : ℤ) (h : z < 0 ∨ 6 ≤ z) :
    loadChapter B (JSNum.fin (z : ℚ)) s = ⟨s, none⟩ := by
  unfold loadChapter
  rcases h with h | h
  · have : (z : ℚ) < 0 := by exact_mod_cast h
    simp [JSNum.lt, this]
  · have h1 : ¬ ((z : ℚ) < 0) := by
      have : (0 : ℚ) ≤ (z : ℚ) := by exact_mod_cast (by omega : (0 : ℤ) ≤ z)
      exact not_lt.mpr this
    have h2 : ¬ ((z : ℚ) < 6) := by
      have : (6 : ℚ) ≤ (z : ℚ) := by exact_mod_cast h
      exact not_lt.mpr this
    simp [JSNum.lt, JSNum.ge, chapters_length, h1, h2]

/-- C1 at index 6 and at index -1, from a playing state. -/
theorem loadChapter_out_of_range_witness :
    ((6 : ℤ) < 0 ∨ (6 : ℤ) ≤ 6) ∧
    loadChapter sampleBrowser (JSNum.fin ((6 : ℤ) : ℚ)) samplePlaying = ⟨samplePlaying, none⟩ ∧
    loadChapter sampleBrowser (JSNum.fin ((-1 : ℤ) : ℚ)) samplePlaying = ⟨samplePlaying, none⟩ :=
  ⟨Or.inr (le_refl _),
   loadChapter_out_of_range sampleBrowser samplePlaying 6 (Or.inr (le_refl _)),
   loadChapter_out_of_range sampleBrowser samplePlaying (-1) (Or.inl (by decide))⟩

/-- C5: for every valid index `i` and every prior state, `loadChapter(i)` raises
no error and leaves the index at `i`, the source at chapter `i`'s source, the
title at `"Chapter "` plus the chapter's number, the subtitle at the chapter's
name, the fill width at `"0%"` and the elapsed time at `"0:00"`; the only call
made on the media element is `load()` (no play request) and the playing flag is
unchanged. -/
theorem loadChapter_valid (B : Browser) (s : Player) (i : ℕ) (hi : i < 6) :
    ∃ c, chapters[i]? = some c ∧
      (loadChapter B (JSNum.fin (i : ℚ)) s).error = none ∧
      (loadChapter B (JSNum.fin (i : ℚ)) s).st.currentChapter = JSNum.fin (i : ℚ) ∧
      (loadChapter B (JSNum.fin (i : ℚ)) s).st.src = c.src ∧
      (loadChapter B (JSNum.fin (i : ℚ)) s).st.chapterTitle = "Chapter " ++ Nat.repr c.num ∧
      (loadChapter B (JSNum.fin (i : ℚ)) s).st.chapterSubtitle = c.name ∧
      (loadChapter B (JSNum.fin (i : ℚ)) s).st.progressWidth = "0%" ∧
      (loadChapter B (JSNum.fin (i : ℚ)) s).st.timeCurrent = "0:00" ∧
      (loadChapter B (JSNum.fin (i : ℚ)) s).st.calls = s.calls ++ [MediaCall.load] ∧
      (loadChapter B (JSNum.fin (i : ℚ)) s).st.isPlaying = s.isPlaying := by
  obtain ⟨c, hc⟩ := chapters_getElem? i hi
  refine ⟨c, hc, ?_⟩
  rw [loadChapter_natCast B s i c hc]
  refine ⟨rfl, rfl, rfl, ?_, rfl, rfl, rfl, rfl, rfl⟩
  show "Chapter " ++ natToString c.num = "Chapter " ++ Nat.repr c.num
  interval_cases i <;> (cases hc; rfl)

/-- C5 at index 4, from a playing state 42 seconds into chapter 3. -/
theorem loadChapter_valid_witness :
    (4 : ℕ) < 6 ∧
    ∃ c, chapters[4]? = some c ∧
      (loadChapter sampleBrowser (JSNum.fin ((4 : ℕ) : ℚ)) samplePlaying).error = none ∧
      (loadChapter sampleBrowser (JSNum.fin ((4 : ℕ) : ℚ)) samplePlaying).st.currentChapter
        = JSNum.fin ((4 : ℕ) : ℚ) ∧
      (loadChapter sampleBrowser (JSNum.fin ((4 : ℕ) : ℚ)) samplePlaying).st.src = c.src ∧
      (loadChapter sampleBrowser (JSNum.fin ((4 : ℕ) : ℚ)) samplePlaying).st.chapterTitle
        = "Chapter " ++ Nat.repr c.num ∧
      (loadChapter sampleBrowser (JSNum.fin ((4 : ℕ) : ℚ)) samplePlaying).st.chapterSubtitle
        = c.name ∧
      (loadChapter sampleBrowser (JSNum.fin ((4 : ℕ) : ℚ)) samplePlaying).st.progressWidth
        = "0%" ∧
      (loadChapter sampleBrowser (JSNum.fin ((4 : ℕ) : ℚ)) samplePlaying).st.timeCurrent
        = "0:00" ∧
      (loadChapter sampleBrowser (JSNum.fin ((4 : ℕ) : ℚ)) samplePlaying).st.calls
        = samplePlaying.calls ++ [MediaCall.load] ∧
      (loadChapter sampleBrowser (JSNum.fin ((4 : ℕ) : ℚ)) samplePlaying).st.isPlaying
        = samplePlaying.isPlaying :=
  ⟨by decide, loadChapter_valid sampleBrowser samplePlaying 4 (by decide)⟩

/-! ## Chapter navigation -/

/-- C4: from a valid index `i`, `nextChapter` leaves the index at
`min (i + 1) 5` and `prevChapter` at `max (i - 1) 0`; at index 0 `prevChapter`
and at index 5 `nextChapter` return the state unchanged (nothing is loaded);
`n` successive `nextChapter` calls end at `min (i + n) 5`, so from index 0 five
calls reach 5 and every longer run stays at 5. -/
theorem navigation_clamps (B : Browser) (s : Player) (i : ℕ)
    (hs : s.currentChapter = JSNum.fin (i : ℚ)) (hi : i ≤ 5) :
    (nextChapter B s).st.currentChapter = JSNum.fin ((min (i + 1) 5 : ℕ) : ℚ) ∧
    (prevChapter B s).st.currentChapter = JSNum.fin ((max ((i : ℤ) - 1) 0 : ℤ) : ℚ) ∧
    (i = 0 → prevChapter B s = ⟨s, none⟩) ∧
    (i = 5 → nextChapter B s = ⟨s, none⟩) ∧
    (∀ n : ℕ, ((fun t => (nextChapter B t).st)^[n] s).currentChapter
        = JSNum.fin ((min (i + n) 5 : ℕ) : ℚ)) ∧
    (i = 0 → ∀ n : ℕ, 5 ≤ n →
        ((fun t => (nextChapter B t).st)^[n] s).currentChapter = JSNum.fin 5) := by
  have iter : ∀ (n : ℕ) (t : Player) (j : ℕ), t.currentChapter = JSNum.fin (j : ℚ) → j ≤ 5 →
      ((fun t => (nextChapter B t).st)^[n] t).currentChapter
        = JSNum.fin ((min (j + n) 5 : ℕ) : ℚ) := by
    intro n
    induction n with
    | zero =>
      intro t j ht hj
      simpa [min_eq_left hj] using ht
    | succ n ih =>
      intro t j ht hj
      rw [Function.iterate_succ_apply]
      rw [ih _ (min (j + 1) 5) (nextChapter_index B t j ht hj) (min_le_right _ _)]
      congr 2
      omega
  refine ⟨nextChapter_index B s i hs hi, ?_, ?_, ?_, fun n => iter n s i hs hi, ?_⟩
  · rw [prevChapter_index B s i hs hi]
    congr 1
    have : ((i - 1 : ℕ) : ℤ) = max ((i : ℤ) - 1) 0 := by omega
    rw [← this]
    simp
  · intro h0
    subst h0
    exact prevChapter_first B s hs
  · intro h5
    exact nextChapter_last B s i hs (by omega)
  · intro h0 n hn
    rw [iter n s i hs hi, h0, min_eq_right (by omega)]
    norm_num

/-- C4 at index 4 of a playing state: one step reaches 5, seven steps stay at 5. -/
theorem navigation_clamps_witness :
    ({ samplePlaying with currentChapter := JSNum.fin ((4 : ℕ) : ℚ) } : Player).currentChapter
      = JSNum.fin ((4 : ℕ) : ℚ) ∧ (4 : ℕ) ≤ 5 ∧
    (nextChapter sampleBrowser
        { samplePlaying with currentChapter := JSNum.fin ((4 : ℕ) : ℚ) }).st.currentChapter
      = JSNum.fin ((min (4 + 1) 5 : ℕ) : ℚ) ∧
    ((fun t => (nextChapter sampleBrowser t).st)^[7]
        { samplePlaying with currentChapter := JSNum.fin ((4 : ℕ) : ℚ) }).currentChapter
      = JSNum.fin ((min (4 + 7) 5 : ℕ) : ℚ) :=
  ⟨rfl, by decide,
   (navigation_clamps sampleBrowser
      { samplePlaying with currentChapter := JSNum.fin ((4 : ℕ) : ℚ) } 4 rfl (by decide)).1,
   (navigation_clamps sampleBrowser
      { samplePlaying with currentChapter := JSNum.fin ((4 : ℕ) : ℚ) } 4 rfl
      (by decide)).2.2.2.2.1 7⟩

/-! ## The `ended` listener -/

/-- C6: on a chapter that is not the last (`i < 5`) the `ended` listener raises
no error, moves the index to exactly `i + 1`, loads that chapter and then issues
a play request exactly when the playing flag was true on arrival, the flag
itself being kept; on the last chapter (`i = 5`) it only sets the playing flag
to false and shows the play icon: the index stays 5 and nothing is loaded. -/
theorem ended_advances_or_stops (B : Browser) (s : Player) (i : ℕ)
    (hs : s.currentChapter = JSNum.fin (i : ℚ)) :
    (i < 5 → ∃ c, chapters[i + 1]? = some c ∧
      (onEnded B s).error = none ∧
      (onEnded B s).st.currentChapter = JSNum.fin ((i + 1 : ℕ) : ℚ) ∧
      (onEnded B s).st.src = c.src ∧
      (onEnded B s).st.isPlaying = s.isPlaying ∧
      (onEnded B s).st.calls =
        s.calls ++ (if s.isPlaying then [MediaCall.load, MediaCall.play] else [MediaCall.load])) ∧
    (i = 5 → onEnded B s =
      ⟨{ s with isPlaying := false, playIconDisplay := "block", pauseIconDisplay := "none" },
        none⟩) := by
  constructor
  · intro hi
    obtain ⟨c, hc⟩ := chapters_getElem? (i + 1) (by omega)
    refine ⟨c, hc, ?_⟩
    unfold onEnded
    rw [hs, lt_last_natCast, ← hs]
    simp only [hi, decide_True, if_true]
    rw [nextChapter_step B s i c hs hi hc]
    cases hp : s.isPlaying <;> simp [loaded, audioPlay, hp]
  · intro hi
    unfold onEnded
    rw [hs, lt_last_natCast]
    have : ¬ i < 5 := by omega
    simp only [this, decide_False]
    rfl

/-- C6 at index 2 of a playing state, and at index 5. -/
theorem ended_advances_or_stops_witness :
    samplePlaying.currentChapter = JSNum.fin ((2 : ℕ) : ℚ) ∧ (2 : ℕ) < 5 ∧
    (∃ c, chapters[2 + 1]? = some c ∧
      (onEnded sampleBrowser samplePlaying).error = none ∧
      (onEnded sampleBrowser samplePlaying).st.currentChapter = JSNum.fin ((2 + 1 : ℕ) : ℚ) ∧
      (onEnded sampleBrowser samplePlaying).st.src = c.src ∧
      (onEnded sampleBrowser samplePlaying).st.isPlaying = samplePlaying.isPlaying ∧
      (onEnded sampleBrowser samplePlaying).st.calls =
        samplePlaying.calls ++
          (if samplePlaying.isPlaying then [MediaCall.load, MediaCall.play]
            else [MediaCall.load])) ∧
    onEnded sampleBrowser { samplePlaying with currentChapter := JSNum.fin ((5 : ℕ) : ℚ) } =
      ⟨{ ({ samplePlaying with currentChapter := JSNum.fin ((5 : ℕ) : ℚ) } : Player) with
          isPlaying := false, playIconDisplay := "block", pauseIconDisplay := "none" },
        none⟩ :=
  ⟨by simp [samplePlaying], by decide,
   (ended_advances_or_stops sampleBrowser samplePlaying 2 (by simp [samplePlaying])).1
      (by decide),
   (ended_advances_or_stops sampleBrowser
      { samplePlaying with currentChapter := JSNum.fin ((5 : ℕ) : ℚ) } 5 rfl).2 rfl⟩

/-! ## Clicks on the chapter list -/

/-- C7: a click inside no chapter item, or whose nearest chapter item is
locked, returns the state unchanged, every field included (index, playing flag,
media source and status, log of media calls, displayed fields), and raises no
error, whatever the item's `data-chapter` attribute. -/
theorem handleChapterClick_ignored (B : Browser) (s : Player) (target : Option ChapterItem)
    (h : target = none ∨ ∃ item, target = some item ∧ item.locked = true) :
    handleChapterClick B target s = ⟨s, none⟩ := by
  rcases h with h | ⟨item, h, hl⟩
  · subst h; rfl
  · subst h
    simp [handleChapterClick, hl]

/-- C7 on a locked item carrying chapter number 2, and on a click outside any item. -/
theorem handleChapterClick_ignored_witness :
    ((some { locked := true, active := false, chapter := some "2" } : Option ChapterItem) = none ∨
      ∃ item, (some { locked := true, active := false, chapter := some "2" } : Option ChapterItem)
        = some item ∧ item.locked = true) ∧
    handleChapterClick sampleBrowser
      (some { locked := true, active := false, chapter := some "2" }) samplePlaying
      = ⟨samplePlaying, none⟩ ∧
    handleChapterClick sampleBrowser none samplePlaying = ⟨samplePlaying, none⟩ :=
  ⟨Or.inr ⟨_, rfl, rfl⟩,
   handleChapterClick_ignored sampleBrowser samplePlaying _ (Or.inr ⟨_, rfl, rfl⟩),
   handleChapterClick_ignored sampleBrowser samplePlaying none (Or.inl rfl)⟩

/-- C3: the index invariant holds after initialisation, but a click on an
unlocked chapter item whose `data-chapter` is the non-numeric `"abc"` breaks it:
`parseInt` gives `NaN`, the range test of `loadChapter` lets `NaN` through, the
index is assigned `NaN`, and `chapters[NaN].src` then throws a `TypeError`. -/
theorem click_nonNumeric_breaks_index (B : Browser) (page : Player) :
    validIndex (domContentLoaded B page).st ∧
    (handleChapterClick B (some { locked := false, active := false, chapter := some "abc" })
        (domContentLoaded B page).st).error = some "TypeError" ∧
    (handleChapterClick B (some { locked := false, active := false, chapter := some "abc" })
        (domContentLoaded B page).st).st.currentChapter = JSNum.nan ∧
    ¬ validIndex
      (handleChapterClick B (some { locked := false, active := false, chapter := some "abc" })
        (domContentLoaded B page).st).st := by
  have hp : parseInt (some "abc") = JSNum.nan := by decide
  have hclick : ∀ s : Player,
      handleChapterClick B (some { locked := false, active := false, chapter := some "abc" }) s
        = ⟨{ s with currentChapter := JSNum.nan }, some "TypeError"⟩ := by
    intro s
    simp [handleChapterClick, hp, JSNum.sub, loadChapter, JSNum.lt, JSNum.ge, chapterAt]
  refine ⟨?_, ?_, ?_, ?_⟩
  · refine ⟨0, by decide, ?_⟩
    obtain ⟨c, hc⟩ := chapters_getElem? 0 (by decide)
    have := loadChapter_natCast B { page with currentChapter := JSNum.fin 0, isPlaying := false }
      0 c hc
    rw [Nat.cast_zero] at this
    unfold domContentLoaded
    rw [this]
    simp [loaded]
  · rw [hclick]
  · rw [hclick]
  · rw [hclick]
    rintro ⟨i, -, hi⟩
    cases hi

/-! ## The `keydown` listener -/

/-- C9: when the target of a `keydown` is an `INPUT`, the state is returned
unchanged for every key.  Otherwise, with current time `t` and duration `d` in
the range where adding and subtracting 5 is exact (`onGrid`, `durationOnGrid`):
`ArrowLeft` sets the current time to `t - 5` and changes nothing else when
`t > 5`, and otherwise does what `prevChapter` does; `ArrowRight` sets the
current time to `t + 5` and changes nothing else when `d` is known (not `NaN`)
and `t < d - 5`, and otherwise does what `nextChapter` does.  A skip from a
position in `[0, d]` lands in `[0, d]`. -/
theorem keydown_arrows (B : Browser) (s : Player) (e : KeyEvent) :
    (e.targetTagName = "INPUT" → onKeydown B e s = ⟨s, none⟩) ∧
    (e.targetTagName ≠ "INPUT" → ∀ t : ℚ, s.audio.currentTime = JSNum.fin t → onGrid t →
      durationOnGrid s.audio.duration →
      (e.code = "ArrowLeft" →
        (5 < t →
          onKeydown B e s =
            ⟨{ s with audio := { s.audio with currentTime := JSNum.fin (t - 5) } }, none⟩ ∧
          0 ≤ t - 5 ∧
          (JSNum.le (JSNum.fin t) s.audio.duration = true →
            JSNum.le (JSNum.fin (t - 5)) s.audio.duration = true)) ∧
        (¬ 5 < t → onKeydown B e s = prevChapter B s)) ∧
      (e.code = "ArrowRight" →
        (s.audio.duration ≠ JSNum.nan ∧
            JSNum.lt (JSNum.fin t) (JSNum.sub s.audio.duration (JSNum.fin 5)) = true →
          onKeydown B e s =
            ⟨{ s with audio := { s.audio with currentTime := JSNum.fin (t + 5) } }, none⟩ ∧
          0 ≤ t + 5 ∧
          JSNum.le (JSNum.fin (t + 5)) s.audio.duration = true) ∧
        (¬ (s.audio.duration ≠ JSNum.nan ∧
            JSNum.lt (JSNum.fin t) (JSNum.sub s.audio.duration (JSNum.fin 5)) = true) →
          onKeydown B e s = nextChapter B s))) := by
  constructor
  · intro h
    simp [onKeydown, h]
  · intro hin t ht hg _
    have h0 : 0 ≤ t := by
      obtain ⟨k, n, hq, -⟩ := hg
      rw [hq]
      positivity
    have hL : ("ArrowLeft" : String) ≠ "Space" := by decide
    have hR : ("ArrowRight" : String) ≠ "Space" := by decide
    have hRL : ("ArrowRight" : String) ≠ "ArrowLeft" := by decide
    constructor
    · intro hc
      constructor
      · intro h5
        refine ⟨?_, by linarith, ?_⟩
        · simp [onKeydown, hin, hc, hL, ht, JSNum.gt, JSNum.lt, JSNum.sub, h5]
        · cases hd : s.audio.duration with
          | nan => simp [JSNum.le]
          | posInf => simp [JSNum.le, JSNum.lt]
          | negInf => simp [JSNum.le, JSNum.lt]
          | fin d =>
            simp only [JSNum.le, JSNum.lt, Bool.not_eq_true', decide_eq_false_iff_not, not_lt]
            intro h; linarith
      · intro h5
        simp [onKeydown, hin, hc, hL, ht, JSNum.gt, JSNum.lt, h5]
    · intro hc
      have key : (JSNum.truthy s.audio.duration &&
            JSNum.lt s.audio.currentTime (JSNum.sub s.audio.duration (JSNum.fin 5))) = true ↔
          (s.audio.duration ≠ JSNum.nan ∧
            JSNum.lt (JSNum.fin t) (JSNum.sub s.audio.duration (JSNum.fin 5)) = true) := by
        rw [ht]
        cases hd : s.audio.duration with
        | nan => simp [JSNum.truthy]
        | posInf => simp [JSNum.truthy]
        | negInf => simp [JSNum.truthy]
        | fin d =>
          simp only [JSNum.truthy, JSNum.sub, JSNum.lt, Bool.and_eq_true, decide_eq_true_eq,
            ne_eq, not_false_eq_true, true_and, and_iff_right_iff_imp, reduceCtorEq]
          intro hlt hd0
          rw [hd0] at hlt
          linarith
      constructor
      · intro hcond
        refine ⟨?_, by linarith, ?_⟩
        · have hk := key.mpr hcond
          simp only [onKeydown, hin, hc, hR, hRL, if_false, hk, if_true]
          simp [ht, JSNum.add]
        · obtain ⟨hn, hlt⟩ := hcond
          cases hd : s.audio.duration with
          | nan => exact absurd hd hn
          | posInf => simp [JSNum.le, JSNum.lt]
          | negInf => rw [hd] at hlt; simp [JSNum.sub, JSNum.lt] at hlt
          | fin d =>
            rw [hd] at hlt
            simp only [JSNum.sub, JSNum.lt, decide_eq_true_eq] at hlt
            simp only [JSNum.le, JSNum.lt, Bool.not_eq_true', decide_eq_false_iff_not, not_lt]
            linarith
      · intro hcond
        have hk : ¬ ((JSNum.truthy s.audio.duration &&
            JSNum.lt s.audio.currentTime (JSNum.sub s.audio.duration (JSNum.fin 5))) = true) :=
          fun h => hcond (key.mp h)
        simp only [onKeydown, hin, hc, hR, hRL, if_false, hk]
        simp

/-- C9 on a playing state 42 seconds into a chapter of 300 seconds: an `INPUT`
target changes nothing, `ArrowLeft` moves to 37 and `ArrowRight` to 47. -/
theorem keydown_arrows_witness :
    onGrid 42 ∧ durationOnGrid samplePlaying.audio.duration ∧
    onKeydown sampleBrowser ⟨"INPUT", "ArrowLeft"⟩ samplePlaying = ⟨samplePlaying, none⟩ ∧
    (onKeydown sampleBrowser ⟨"BODY", "ArrowLeft"⟩ samplePlaying =
        ⟨{ samplePlaying with audio := { samplePlaying.audio with
              currentTime := JSNum.fin (42 - 5) } }, none⟩ ∧
      (0 : ℚ) ≤ 42 - 5 ∧
      (JSNum.le (JSNum.fin 42) samplePlaying.audio.duration = true →
        JSNum.le (JSNum.fin (42 - 5)) samplePlaying.audio.duration = true)) ∧
    (onKeydown sampleBrowser ⟨"BODY", "ArrowRight"⟩ samplePlaying =
        ⟨{ samplePlaying with audio := { samplePlaying.audio with
              currentTime := JSNum.fin (42 + 5) } }, none⟩ ∧
      (0 : ℚ) ≤ 42 + 5 ∧
      JSNum.le (JSNum.fin (42 + 5)) samplePlaying.audio.duration = true) :=
  have hg : onGrid 42 := ⟨0, 42, by norm_num, by norm_num⟩
  have hd : durationOnGrid samplePlaying.audio.duration :=
    show onGrid 300 from ⟨0, 300, by norm_num, by norm_num⟩
  ⟨hg, hd,
   (keydown_arrows sampleBrowser samplePlaying ⟨"INPUT", "ArrowLeft"⟩).1 rfl,
   (((keydown_arrows sampleBrowser samplePlaying ⟨"BODY", "ArrowLeft"⟩).2 (by decide) 42 rfl
      hg hd).1 rfl).1 (by norm_num),
   (((keydown_arrows sampleBrowser samplePlaying ⟨"BODY", "ArrowRight"⟩).2 (by decide) 42 rfl
      hg hd).2 rfl).1
      ⟨by simp [samplePlaying], by simp [samplePlaying, JSNum.sub, JSNum.lt]; norm_num⟩⟩

end AudioPlayer
